import Mathlib

/-!
Shallow embedding of `src/model.py` from the `pv_filter` repository.

Numeric values (Python floats) are modelled as exact rationals `ℚ`.
The 2x1 numpy state vector is a `Vec2`, the 2x2 matrix `Ad` a `Mat2`,
and the 2x1 input matrix `Bd` a `Vec2` (column vector).

`np.random.normal(mu, sigma)` is modelled by `normalDraw mu sigma xi
= mu + sigma * xi`, where `xi` stands for the standard-normal sample
the generator produced; every call to `step` consumes an explicit
sample, so the per-call freshness of the draw is represented by the
caller supplying each sample.
-/

namespace PvFilter

/-- A 2x1 numpy column vector: first entry position-like (`x[0]`),
second entry velocity-like (`x[1]`). -/
structure Vec2 where
  p : ℚ
  v : ℚ
deriving DecidableEq, Repr

/-- A 2x2 numpy matrix, entries row-major. -/
structure Mat2 where
  m00 : ℚ
  m01 : ℚ
  m10 : ℚ
  m11 : ℚ
deriving DecidableEq, Repr

/-- Componentwise vector addition. -/
def Vec2.add (a b : Vec2) : Vec2 := ⟨a.p + b.p, a.v + b.v⟩

/-- Model of `np.array([[a],[b]]) * c`: scalar multiple of a column vector. -/
def Vec2.smulR (x : Vec2) (c : ℚ) : Vec2 := ⟨x.p * c, x.v * c⟩

/-- Componentwise matrix addition, as in `np.eye(2) + ...`. -/
def Mat2.add (A B : Mat2) : Mat2 :=
  ⟨A.m00 + B.m00, A.m01 + B.m01, A.m10 + B.m10, A.m11 + B.m11⟩

/-- Model of `A * dt`: scalar multiple of a matrix. -/
def Mat2.smulR (A : Mat2) (c : ℚ) : Mat2 :=
  ⟨A.m00 * c, A.m01 * c, A.m10 * c, A.m11 * c⟩

/-- Model of `np.dot(A, x)` for a 2x2 matrix and a 2x1 vector. -/
def Mat2.mulVec (A : Mat2) (x : Vec2) : Vec2 :=
  ⟨A.m00 * x.p + A.m01 * x.v, A.m10 * x.p + A.m11 * x.v⟩

/-- Model of `np.eye(2)`. -/
def eye2 : Mat2 := ⟨1, 0, 0, 1⟩

/-- Model of `np.dot(np.array([c0, c1]), x)`: row vector times column vector. -/
def rowDot (c0 c1 : ℚ) (x : Vec2) : ℚ := c0 * x.p + c1 * x.v

/-- Model of `np.random.normal(mu, sigma)` given the standard-normal sample `xi`
the generator produced: the draw is `mu + sigma * xi`. -/
def normalDraw (mu sigma xi : ℚ) : ℚ := mu + sigma * xi

/-- The mutable attributes of a `process_variable` object. -/
structure process_variable where
  x : Vec2
  u : ℚ
  wn : ℚ
  sigma : ℚ
  y : ℚ
  Ad : Mat2
  Bd : Vec2
deriving DecidableEq, Repr

/-- Embedding of `process_variable.__init__(zeta, wn, x_0, u_0, dt, sigma)`
(src/model.py lines 45-87), field by field in source order. -/
def process_variable.init (zeta wn : ℚ) (x_0 : Vec2) (u_0 dt sigma : ℚ) :
    process_variable :=
  { x := x_0
    u := u_0
    wn := wn
    sigma := sigma
    y := rowDot (wn ^ 2) 0 x_0
    Ad := eye2.add (Mat2.smulR ⟨0, 1, -(wn ^ 2), (-2) * zeta * wn⟩ dt)
    Bd := Vec2.smulR ⟨0, 1⟩ dt }

/-- Embedding of `process_variable.step(u)` (src/model.py lines 89-111): updates
`x` and `y` and returns the new `y`.  `xi` is the standard-normal
sample consumed by the `np.random.normal(0, sigma)` call. -/
def process_variable.step (m : process_variable) (u xi : ℚ) :
    process_variable × ℚ :=
  let x' := (m.Ad.mulVec m.x).add (m.Bd.smulR u)
  let y' := rowDot (m.wn ^ 2) 0 x' + normalDraw 0 m.sigma xi
  ({ m with x := x', y := y' }, y')

/-- Run a sequence of `step` calls: `us` is the control-input sequence,
`xis` the stream of standard-normal samples (one consumed per call);
returns the sequence of outputs. -/
def process_variable.run (m : process_variable) :
    List ℚ → List ℚ → List ℚ
  | [], _ => []
  | u :: us, xis =>
    (m.step u (xis.headD 0)).2 ::
      (m.step u (xis.headD 0)).1.run us xis.tail

/-- The mutable attributes of a `fo_filter` object. -/
structure fo_filter where
  z : ℚ
  alpha : ℚ
  i : ℕ
deriving DecidableEq, Repr

/-- Embedding of `fo_filter.__init__(wc, z_0, dt)` (src/model.py lines 124-149). -/
def fo_filter.init (wc z_0 dt : ℚ) : fo_filter :=
  { z := z_0
    alpha := dt / (1 / wc + dt)
    i := 0 }

/-- Embedding of `fo_filter.filt(data)` (src/model.py lines 151-173): two-branch
update on the counter `i`, returning `self.z`. -/
def fo_filter.filt (f : fo_filter) (data : ℚ) : fo_filter × ℚ :=
  if f.i = 0 then
    ({ f with i := f.i + 1 }, f.z)
  else
    let z' := f.alpha * data + (1 - f.alpha) * f.z
    ({ f with z := z', i := f.i + 1 }, z')

/-- The initial-output formula as the spec words it (for comparison
with `process_variable.init`): `y = wn² · x_0[0] + noise_draw(0, sigma)`,
with `xi` the standard-normal sample of the draw. -/
def specInitY (wn : ℚ) (x_0 : Vec2) (sigma xi : ℚ) : ℚ :=
  wn ^ 2 * x_0.p + normalDraw 0 sigma xi

/-- Construction of a `fo_filter` as a fallible operation.  The only
failure path in the Python constructor is division by zero in
`dt / ((1/wc) + dt)`: the inner `1/wc` raises `ZeroDivisionError` when
`wc = 0`, and the outer division raises it when `1/wc + dt = 0`
(reachable with `wc < 0`, `dt = -1/wc`).  No parameter validation is
performed; on every other input construction completes with
`fo_filter.init`. -/
def fo_filter.initE (wc z_0 dt : ℚ) : Except String fo_filter :=
  if wc = 0 then Except.error "ZeroDivisionError"
  else if 1 / wc + dt = 0 then Except.error "ZeroDivisionError"
  else Except.ok (fo_filter.init wc z_0 dt)

/-- Construction of a `process_variable` as a fallible operation: the Python
constructor performs no parameter validation and no division, so the
embedding always succeeds. -/
def process_variable.initE (zeta wn : ℚ) (x_0 : Vec2) (u_0 dt sigma : ℚ) :
    Except String process_variable :=
  Except.ok (process_variable.init zeta wn x_0 u_0 dt sigma)

/-- Modelled from the spec: the fail-fast validating constructor the
spec's error taxonomy asks for (`wc ≤ 0` or `dt ≤ 0` yields an
invalid-argument error), for comparison with `fo_filter.initE`. -/
def fo_filter.initSpecChecked (wc z_0 dt : ℚ) : Except String fo_filter :=
  if wc ≤ 0 then Except.error "invalid argument: wc must be positive"
  else if dt ≤ 0 then Except.error "invalid argument: dt must be positive"
  else Except.ok (fo_filter.init wc z_0 dt)

/-- With `sigma = 0` the noise draw vanishes, so a `step` call does not
depend on the standard-normal sample it consumes. -/
theorem step_noiseless_eq (m : process_variable) (h : m.sigma = 0)
    (u xi xi' : ℚ) : m.step u xi = m.step u xi' := by
  simp [process_variable.step, h, normalDraw]

/-- A `step` call preserves the `sigma` field. -/
theorem step_sigma_eq (m : process_variable) (u xi : ℚ) :
    (m.step u xi).1.sigma = m.sigma := rfl

/-- With `sigma = 0`, a run is independent of the noise-sample stream. -/
theorem run_noiseless_det :
    ∀ (us : List ℚ) (m : process_variable), m.sigma = 0 →
      ∀ xis xis' : List ℚ, m.run us xis = m.run us xis'
  | [], _, _, _, _ => rfl
  | u :: us, m, h, xis, xis' => by
    simp only [process_variable.run]
    rw [step_noiseless_eq m h u (xis.headD 0) (xis'.headD 0)]
    exact congrArg _
      (run_noiseless_det us _ ((step_sigma_eq m u _).trans h) xis.tail xis'.tail)

/-- Claim C1: `step(u)` first updates the state by `x ← Ad·x + Bd·u`
using the `Ad`, `Bd` fixed at construction, then sets
`y ← wn²·x[0] + noise_draw(0, sigma)` on the new state (the draw being
`sigma · xi` for the fresh standard-normal sample `xi`), and returns
this new `y`. -/
theorem step_updates_state_then_output (m : process_variable) (u xi : ℚ) :
    (m.step u xi).1.x = (m.Ad.mulVec m.x).add (m.Bd.smulR u) ∧
    (m.step u xi).1.y =
      m.wn ^ 2 * ((m.Ad.mulVec m.x).add (m.Bd.smulR u)).p
        + normalDraw 0 m.sigma xi ∧
    (m.step u xi).2 = (m.step u xi).1.y := by
  refine ⟨rfl, ?_, rfl⟩
  simp [process_variable.step, rowDot]

/-- Claim C3 counterexample: the code computes the initial output
without any noise draw.  With `wn = 1`, `x_0 = (1, 0)`, `sigma = 1`
and a draw whose standard-normal sample is `xi = 1`, the spec formula
`wn²·x_0[0] + noise_draw(0, sigma)` gives `2`, but construction sets
`y = 1` — the constructor consumes no sample at all. -/
theorem init_y_no_noise_cex :
    (process_variable.init 0 1 ⟨1, 0⟩ 0 1 1).y = 1 ∧
    specInitY 1 ⟨1, 0⟩ 1 1 = 2 ∧
    (process_variable.init 0 1 ⟨1, 0⟩ 0 1 1).y ≠ specInitY 1 ⟨1, 0⟩ 1 1 := by
  refine ⟨?_, ?_, ?_⟩ <;>
    norm_num [process_variable.init, specInitY, rowDot, normalDraw]

/-- Claim C3 amended: construction sets the initial output to exactly
`y = wn²·x_0[0]`, with no noise draw, for every `sigma` (so in
particular for `sigma = 0` it is `wn²·x_0[0]`, as the spec says). -/
theorem init_y_exact (zeta wn : ℚ) (x_0 : Vec2) (u_0 dt sigma : ℚ) :
    (process_variable.init zeta wn x_0 u_0 dt sigma).y = wn ^ 2 * x_0.p := by
  simp [process_variable.init, rowDot]

/-- Claim C4: construction computes exactly
`Ad = I + dt·[[0, 1], [-wn², -2·zeta·wn]]` and `Bd = dt·[[0], [1]]`,
written out entrywise. -/
theorem init_Ad_Bd (zeta wn : ℚ) (x_0 : Vec2) (u_0 dt sigma : ℚ) :
    (process_variable.init zeta wn x_0 u_0 dt sigma).Ad.m00 = 1 + dt * 0 ∧
    (process_variable.init zeta wn x_0 u_0 dt sigma).Ad.m01 = 0 + dt * 1 ∧
    (process_variable.init zeta wn x_0 u_0 dt sigma).Ad.m10 =
      0 + dt * (-(wn ^ 2)) ∧
    (process_variable.init zeta wn x_0 u_0 dt sigma).Ad.m11 =
      1 + dt * (-2 * zeta * wn) ∧
    (process_variable.init zeta wn x_0 u_0 dt sigma).Bd.p = dt * 0 ∧
    (process_variable.init zeta wn x_0 u_0 dt sigma).Bd.v = dt * 1 := by
  refine ⟨?_, ?_, ?_, ?_, ?_, ?_⟩ <;>
    simp only [process_variable.init, eye2, Mat2.add, Mat2.smulR, Vec2.smulR] <;>
    ring

/-- Claim C2: `filt` is a two-state machine on the counter `i`.  On a
freshly constructed filter (`i = 0`) it returns the unchanged `z_0`
regardless of the data argument, leaves `z` at `z_0` and increments `i`
to 1; on every later call (`i > 0`) it sets
`z ← alpha·data + (1-alpha)·z`, increments `i`, and returns the new
`z`. -/
theorem filt_two_state (wc z_0 dt data d : ℚ) (f : fo_filter)
    (h : 0 < f.i) :
    ((fo_filter.init wc z_0 dt).filt data).2 = z_0 ∧
    ((fo_filter.init wc z_0 dt).filt data).1.z = z_0 ∧
    ((fo_filter.init wc z_0 dt).filt data).1.i = 1 ∧
    f.filt d =
      ({ f with z := f.alpha * d + (1 - f.alpha) * f.z, i := f.i + 1 },
       f.alpha * d + (1 - f.alpha) * f.z) := by
  refine ⟨rfl, rfl, rfl, ?_⟩
  simp only [fo_filter.filt, if_neg h.ne']

/-- Claim C2 witness: a fresh filter with `z_0 = 5` returns 5 on its
first call whatever the argument, and a filter in steady operation
applies the convex update. -/
theorem filt_two_state_witness :
    ((fo_filter.init 1 5 (1 / 20)).filt 99).2 = 5 ∧
    (({ z := 2, alpha := 1 / 2, i := 3 } : fo_filter).filt 4).2 =
      1 / 2 * 4 + (1 - 1 / 2) * 2 := by
  have h := filt_two_state 1 5 (1 / 20) 99 4
      ({ z := 2, alpha := 1 / 2, i := 3 } : fo_filter) (by norm_num)
  exact ⟨h.1, by rw [h.2.2.2]⟩

/-- Claim C5: `fo_filter` construction sets `z` to `z_0`, `i` to 0 and
`alpha` to `dt / (1/wc + dt)`; for `wc > 0` and `dt > 0` this `alpha`
lies strictly between 0 and 1. -/
theorem init_filter_fields (wc z_0 dt : ℚ) (hwc : 0 < wc) (hdt : 0 < dt) :
    (fo_filter.init wc z_0 dt).z = z_0 ∧
    (fo_filter.init wc z_0 dt).i = 0 ∧
    (fo_filter.init wc z_0 dt).alpha = dt / (1 / wc + dt) ∧
    0 < (fo_filter.init wc z_0 dt).alpha ∧
    (fo_filter.init wc z_0 dt).alpha < 1 := by
  have hinv : 0 < 1 / wc := by positivity
  have hden : 0 < 1 / wc + dt := by linarith
  refine ⟨rfl, rfl, rfl, ?_, ?_⟩
  · exact div_pos hdt hden
  · exact (div_lt_one hden).mpr (by linarith)

/-- Claim C5 witness: the simulation's filter `fo_filter(1, 0, 0.05)`
has `z = 0`, `i = 0` and `alpha = (1/20) / (1/1 + 1/20)`, strictly
between 0 and 1. -/
theorem init_filter_fields_witness :
    (fo_filter.init 1 0 (1 / 20)).z = 0 ∧
    (fo_filter.init 1 0 (1 / 20)).i = 0 ∧
    (fo_filter.init 1 0 (1 / 20)).alpha = (1 / 20) / (1 / 1 + 1 / 20) ∧
    0 < (fo_filter.init 1 0 (1 / 20)).alpha ∧
    (fo_filter.init 1 0 (1 / 20)).alpha < 1 :=
  init_filter_fields 1 0 (1 / 20) (by norm_num) (by norm_num)

/-- Claim C6 counterexample: construction with the invalid cutoff
`wc = -1` (and valid `dt = 1/20`) does not produce an invalid-argument
error: it completes silently, yielding the numerically meaningless
smoothing factor `alpha = -1/19`, whereas the spec's fail-fast
constructor rejects the same arguments. -/
theorem no_validation_cex :
    fo_filter.initE (-1) 0 (1 / 20) =
      Except.ok (fo_filter.init (-1) 0 (1 / 20)) ∧
    (fo_filter.init (-1) 0 (1 / 20)).alpha = -1 / 19 ∧
    fo_filter.initSpecChecked (-1) 0 (1 / 20) =
      Except.error "invalid argument: wc must be positive" := by
  refine ⟨?_, ?_, ?_⟩
  · rw [fo_filter.initE, if_neg (by norm_num), if_neg (by norm_num)]
  · norm_num [fo_filter.init]
  · norm_num [fo_filter.initSpecChecked]

/-- Claim C6 amended: construction performs no parameter validation
and raises no invalid-argument error.  With `wc < 0` and `dt > 0`,
`fo_filter` construction completes silently with a smoothing factor
`alpha` outside (0, 1) whenever `1/wc + dt ≠ 0`; at the denominator
singularities — `wc = 0`, or `dt = -1/wc` — it fails with a bare
`ZeroDivisionError`, not a descriptive invalid-argument error; and
`process_variable` construction always completes, even with
`wn = 0`. -/
theorem no_validation_amended (wc z_0 dt : ℚ) (hwc : wc < 0)
    (hdt : 0 < dt) (hden : 1 / wc + dt ≠ 0) :
    fo_filter.initE wc z_0 dt = Except.ok (fo_filter.init wc z_0 dt) ∧
    ¬(0 < (fo_filter.init wc z_0 dt).alpha ∧
        (fo_filter.init wc z_0 dt).alpha < 1) ∧
    fo_filter.initE 0 z_0 dt = Except.error "ZeroDivisionError" ∧
    fo_filter.initE wc z_0 (-(1 / wc)) = Except.error "ZeroDivisionError" ∧
    process_variable.initE 1 0 ⟨0, 0⟩ 0 dt 0 =
      Except.ok (process_variable.init 1 0 ⟨0, 0⟩ 0 dt 0) := by
  have hinv : 1 / wc < 0 := one_div_neg.mpr hwc
  refine ⟨?_, ?_, ?_, ?_, rfl⟩
  · rw [fo_filter.initE, if_neg hwc.ne, if_neg hden]
  · rintro ⟨h0, h1⟩
    simp only [fo_filter.init] at h0 h1
    rcases lt_trichotomy (1 / wc + dt) 0 with hd | hd | hd
    · exact absurd (div_neg_of_pos_of_neg hdt hd) (not_lt.mpr h0.le)
    · rw [hd, div_zero] at h0
      exact lt_irrefl 0 h0
    · have : (1 : ℚ) < dt / (1 / wc + dt) :=
        (one_lt_div hd).mpr (by linarith)
      linarith
  · rw [fo_filter.initE, if_pos rfl]
  · rw [fo_filter.initE, if_neg hwc.ne, if_pos (by ring)]

/-- Claim C6 amended witness: at `wc = -1`, `dt = 1/20` construction
completes with `alpha` outside (0, 1); at `wc = 0` and at
`dt = -1/wc = 1` it fails with `ZeroDivisionError`. -/
theorem no_validation_amended_witness :
    fo_filter.initE (-1) 0 (1 / 20) =
      Except.ok (fo_filter.init (-1) 0 (1 / 20)) ∧
    ¬(0 < (fo_filter.init (-1) 0 (1 / 20)).alpha ∧
        (fo_filter.init (-1) 0 (1 / 20)).alpha < 1) ∧
    fo_filter.initE 0 0 (1 / 20) = Except.error "ZeroDivisionError" ∧
    fo_filter.initE (-1) 0 (-(1 / (-1))) =
      Except.error "ZeroDivisionError" ∧
    process_variable.initE 1 0 ⟨0, 0⟩ 0 (1 / 20) 0 =
      Except.ok (process_variable.init 1 0 ⟨0, 0⟩ 0 (1 / 20) 0) :=
  no_validation_amended (-1) 0 (1 / 20) (by norm_num) (by norm_num)
    (by norm_num)

/-- Claim C7: in steady operation (`i > 0`) with `0 < alpha < 1`, the
value returned by `filt(data)` lies between the previous `z` and
`data`, inclusive; in particular a constant input is never
overshot. -/
theorem filt_convex (f : fo_filter) (data : ℚ) (hi : 0 < f.i)
    (h0 : 0 < f.alpha) (h1 : f.alpha < 1) :
    min f.z data ≤ (f.filt data).2 ∧ (f.filt data).2 ≤ max f.z data := by
  simp only [fo_filter.filt, if_neg hi.ne']
  constructor
  · nlinarith [min_le_left f.z data, min_le_right f.z data,
      mul_le_mul_of_nonneg_left (min_le_right f.z data) h0.le,
      mul_le_mul_of_nonneg_left (min_le_left f.z data)
        (by linarith : (0 : ℚ) ≤ 1 - f.alpha)]
  · nlinarith [le_max_left f.z data, le_max_right f.z data,
      mul_le_mul_of_nonneg_left (le_max_right f.z data) h0.le,
      mul_le_mul_of_nonneg_left (le_max_left f.z data)
        (by linarith : (0 : ℚ) ≤ 1 - f.alpha)]

/-- Claim C7 witness: a steady-state filter with `z = 2`, `alpha = 1/2`
fed `data = 4` returns a value between 2 and 4. -/
theorem filt_convex_witness :
    min (2 : ℚ) 4 ≤
      (({ z := 2, alpha := 1 / 2, i := 3 } : fo_filter).filt 4).2 ∧
    (({ z := 2, alpha := 1 / 2, i := 3 } : fo_filter).filt 4).2 ≤
      max (2 : ℚ) 4 :=
  filt_convex ({ z := 2, alpha := 1 / 2, i := 3 } : fo_filter) 4
    (by norm_num) (by norm_num) (by norm_num)

/-- Claim C8: `step` mutates only `x` and `y`: the matrices `Ad`, `Bd`,
the stored initial control input `u`, and the parameters `wn` and
`sigma` are all unchanged by any `step` call (they are set once at
construction, see the `init` theorems). -/
theorem step_frame (m : process_variable) (u xi : ℚ) :
    (m.step u xi).1.Ad = m.Ad ∧ (m.step u xi).1.Bd = m.Bd ∧
    (m.step u xi).1.u = m.u ∧ (m.step u xi).1.wn = m.wn ∧
    (m.step u xi).1.sigma = m.sigma :=
  ⟨rfl, rfl, rfl, rfl, rfl⟩

/-- Claim C9: with `sigma = 0` every `step` is deterministic — its
return value is exactly `wn²·x[0]` on the updated state
`x ← Ad·x + Bd·u`, whatever standard-normal sample the generator
produced — and a whole run over the same input sequence yields the
same output sequence regardless of the noise-sample stream. -/
theorem step_sigma_zero_deterministic (m : process_variable)
    (h : m.sigma = 0) :
    (∀ u xi : ℚ, (m.step u xi).2 =
      m.wn ^ 2 * ((m.Ad.mulVec m.x).add (m.Bd.smulR u)).p) ∧
    ∀ (us xis xis' : List ℚ), m.run us xis = m.run us xis' := by
  constructor
  · intro u xi
    simp [process_variable.step, rowDot, normalDraw, h]
  · intro us xis xis'
    exact run_noiseless_det us m h xis xis'

/-- Claim C9 witness: a noiseless plant started at `x = (1, 1)` with
`wn = 2`, `zeta = 1`, `dt = 1` returns `wn²·x'[0]` on a concrete step,
and a 2-step run is identical under two different noise streams. -/
theorem step_sigma_zero_deterministic_witness :
    ((process_variable.init 1 2 ⟨1, 1⟩ 0 1 0).step 3 7).2 =
      (process_variable.init 1 2 ⟨1, 1⟩ 0 1 0).wn ^ 2 *
        (((process_variable.init 1 2 ⟨1, 1⟩ 0 1 0).Ad.mulVec
            (process_variable.init 1 2 ⟨1, 1⟩ 0 1 0).x).add
          ((process_variable.init 1 2 ⟨1, 1⟩ 0 1 0).Bd.smulR 3)).p ∧
    (process_variable.init 1 2 ⟨1, 1⟩ 0 1 0).run [1, 2] [5, 6] =
      (process_variable.init 1 2 ⟨1, 1⟩ 0 1 0).run [1, 2] [0, 0] := by
  have h := step_sigma_zero_deterministic
      (process_variable.init 1 2 ⟨1, 1⟩ 0 1 0) rfl
  exact ⟨h.1 3 7, h.2 [1, 2] [5, 6] [0, 0]⟩

/-- Claim C10: in steady operation (`i > 0`), calling `filt` with data
equal to the current stored `z` returns `z` and leaves `z` unchanged,
for any `alpha`. -/
theorem filt_fixed_point (f : fo_filter) (h : 0 < f.i) :
    (f.filt f.z).2 = f.z ∧ (f.filt f.z).1.z = f.z := by
  simp only [fo_filter.filt, if_neg h.ne']
  constructor <;> ring

/-- Claim C10 witness: a steady-state filter with `z = 3`, `alpha = 2/7`
fed its own state returns 3 and keeps `z = 3`. -/
theorem filt_fixed_point_witness :
    (({ z := 3, alpha := 2 / 7, i := 5 } : fo_filter).filt 3).2 = 3 ∧
    (({ z := 3, alpha := 2 / 7, i := 5 } : fo_filter).filt 3).1.z = 3 :=
  filt_fixed_point ({ z := 3, alpha := 2 / 7, i := 5 } : fo_filter)
    (by norm_num)

end PvFilter
